import Mathlib

/-!
Verification of the Wheel-of-life priority-scoring algorithm and its
mail-send endpoint, embedded from the TypeScript sources
(`server/routes.ts`, the shared schema module, and the client page
component).  JavaScript numbers are modelled as rationals; record-typed
inputs become functions from string keys to optional rationals; the
ECMAScript `Array.prototype.sort` (stable by specification) becomes a
stable insertion sort.
-/

/-- The eight fixed life categories of the shared schema module
(`lifeCategories`), as an enumeration. -/
inductive LifeCategory where
  | health
  | relationships
  | romance
  | personal
  | «fun»
  | community
  | career
  | finances
deriving DecidableEq

/-- The `lifeCategories` array of the shared schema: the eight categories
in their fixed enumeration order. -/
def lifeCategories : List LifeCategory :=
  [.health, .relationships, .romance, .personal, .«fun», .community, .career, .finances]

/-- The string key under which a category is stored in the record-typed
input objects (in the source the categories are these strings). -/
def categoryKey : LifeCategory → String
  | .health => "health"
  | .relationships => "relationships"
  | .romance => "romance"
  | .personal => "personal"
  | .«fun» => "fun"
  | .community => "community"
  | .career => "career"
  | .finances => "finances"

/-- The `lifeCategoryLabels` record of the shared schema: the fixed
human-readable label of each category. -/
def lifeCategoryLabels : LifeCategory → String
  | .health => "Health & Fitness"
  | .relationships => "Friends & Family"
  | .romance => "Romance / Love Life"
  | .personal => "Personal Development"
  | .«fun» => "Fun & Recreation"
  | .community => "Community & Contribution"
  | .career => "Career / Business"
  | .finances => "Finances"

/-- Position of a category in the fixed enumeration `lifeCategories`. -/
def catIdx : LifeCategory → ℕ
  | .health => 0
  | .relationships => 1
  | .romance => 2
  | .personal => 3
  | .«fun» => 4
  | .community => 5
  | .career => 6
  | .finances => 7

/-- An `AssessmentData` value: two record-typed mappings from string keys
to numbers.  A key that is absent from the JavaScript object is modelled
by `none`. -/
structure AssessmentData where
  satisfaction : String → Option ℚ
  motivation : String → Option ℚ

/-- One entry of `priorityRanked`, as built in `calculateResults`. -/
structure ScoredCategory where
  category : LifeCategory
  label : String
  satisfaction : ℚ
  motivation : ℚ
  improvement : ℚ
  priority : ℚ
deriving DecidableEq

/-- The `CalculatedResults` interface of the shared schema: four
category-keyed records and the ranked list. -/
structure CalculatedResults where
  satisfaction : LifeCategory → ℚ
  motivation : LifeCategory → ℚ
  improvement : LifeCategory → ℚ
  priority : LifeCategory → ℚ
  priorityRanked : List ScoredCategory

/-- The lookup `m[k] || 1` of the source: JavaScript `||` replaces both a
missing value (`undefined`) and a present `0` by the fallback `1`, since
both are falsy. -/
def ratingOr1 (m : String → Option ℚ) (k : String) : ℚ :=
  match m k with
  | some v => if v = 0 then 1 else v
  | none => 1

/-- The record built for one category inside the `.map` of
`calculateResults`; its numeric fields re-read the values that the
preceding `forEach` stored into the four result records. -/
def mkEntry (assessmentData : AssessmentData) (category : LifeCategory) : ScoredCategory :=
  { category := category
    label := lifeCategoryLabels category
    satisfaction := ratingOr1 assessmentData.satisfaction (categoryKey category)
    motivation := ratingOr1 assessmentData.motivation (categoryKey category)
    improvement := 10 - ratingOr1 assessmentData.satisfaction (categoryKey category)
    priority := (10 - ratingOr1 assessmentData.satisfaction (categoryKey category))
      * ratingOr1 assessmentData.motivation (categoryKey category) }

/-- Stable insertion of one entry into a list already sorted by
descending priority: the new element goes in front of the first strictly
smaller (by priority) element, and after every element of equal priority,
exactly as a stable sort places an element relative to those that
preceded it. -/
def sortedInsert (x : ScoredCategory) : List ScoredCategory → List ScoredCategory
  | [] => [x]
  | y :: ys => if y.priority ≤ x.priority then x :: y :: ys else y :: sortedInsert x ys

/-- Model of `.sort((a, b) => b.priority - a.priority)`:
`Array.prototype.sort` is stable by the ECMAScript specification, and a
stable sort's output is determined by the comparator alone, so any stable
descending-by-priority sort is a faithful model.  Implemented as a stable
insertion sort. -/
def sortByPriorityDesc : List ScoredCategory → List ScoredCategory
  | [] => []
  | x :: xs => sortedInsert x (sortByPriorityDesc xs)

/-- The server-side `calculateResults` of `server/routes.ts`: for each of
the eight categories it stores the (falsy-defaulted) ratings, the
improvement `10 - satisfaction` and the priority
`(10 - satisfaction) * motivation`, then ranks the per-category records
by descending priority. -/
def calculateResults (assessmentData : AssessmentData) : CalculatedResults :=
  { satisfaction := fun category => ratingOr1 assessmentData.satisfaction (categoryKey category)
    motivation := fun category => ratingOr1 assessmentData.motivation (categoryKey category)
    improvement := fun category => 10 - ratingOr1 assessmentData.satisfaction (categoryKey category)
    priority := fun category => (10 - ratingOr1 assessmentData.satisfaction (categoryKey category))
      * ratingOr1 assessmentData.motivation (categoryKey category)
    priorityRanked := sortByPriorityDesc (lifeCategories.map
      (fun category => mkEntry assessmentData category)) }

namespace Client

/-- The client-side `calculateResults` of the page component, transcribed
independently from its own body (which closes over the component's
`assessmentData` state); the defaulting `|| 1` and the per-category
record are inlined just as they appear there. -/
def calculateResults (assessmentData : AssessmentData) : CalculatedResults :=
  { satisfaction := fun category =>
      match assessmentData.satisfaction (categoryKey category) with
      | some v => if v = 0 then 1 else v
      | none => 1
    motivation := fun category =>
      match assessmentData.motivation (categoryKey category) with
      | some v => if v = 0 then 1 else v
      | none => 1
    improvement := fun category =>
      10 - ratingOr1 assessmentData.satisfaction (categoryKey category)
    priority := fun category =>
      (10 - ratingOr1 assessmentData.satisfaction (categoryKey category))
        * ratingOr1 assessmentData.motivation (categoryKey category)
    priorityRanked := sortByPriorityDesc (lifeCategories.map (fun category =>
      { category := category
        label := lifeCategoryLabels category
        satisfaction := ratingOr1 assessmentData.satisfaction (categoryKey category)
        motivation := ratingOr1 assessmentData.motivation (categoryKey category)
        improvement := 10 - ratingOr1 assessmentData.satisfaction (categoryKey category)
        priority := (10 - ratingOr1 assessmentData.satisfaction (categoryKey category))
          * ratingOr1 assessmentData.motivation (categoryKey category) })) }

end Client

/-! ### The mail-send endpoint of `server/routes.ts` -/

/-- A raw record-typed JSON object of ratings as it arrives in the
request body: a finite list of key/value pairs. -/
structure RawAssessment where
  satisfaction : List (String × ℚ)
  motivation : List (String × ℚ)

/-- The raw request body of the mail-send endpoint. -/
structure RequestBody where
  email : String
  name : Option String
  updates : Option Bool
  assessmentData : RawAssessment

/-- A body accepted by `emailResultsSchema.parse`. -/
structure EmailResultsRequest where
  email : String
  name : Option String
  updates : Option Bool
  assessmentData : AssessmentData

/-- Split a character list at every occurrence of `sep` (the separator
characters are dropped; adjacent separators yield empty groups). -/
def splitOnChar (sep : Char) : List Char → List (List Char)
  | [] => [[]]
  | c :: rest =>
    if c == sep then [] :: splitOnChar sep rest
    else
      match splitOnChar sep rest with
      | [] => [[c]]
      | g :: gs => (c :: g) :: gs

/-- Whether the list contains two adjacent dots. -/
def hasDoubleDot : List Char → Bool
  | [] => false
  | [_] => false
  | c1 :: c2 :: rest => (c1 == '.' && c2 == '.') || hasDoubleDot (c2 :: rest)

/-- Models the `z.string().email()` check of the schema (a fixed regex in
the validation library): exactly one at-sign; a nonempty local part that
neither starts nor ends with a dot and contains no two adjacent dots; a
domain of at least two dot-separated nonempty labels whose last label has
at least two characters. -/
def isValidEmail (s : String) : Bool :=
  match splitOnChar '@' s.toList with
  | [loc, dom] =>
    match loc with
    | [] => false
    | lc :: lrest =>
      let labels := splitOnChar '.' dom
      lc != '.' &&
      List.getLastD (lc :: lrest) ' ' != '.' &&
      !hasDoubleDot (lc :: lrest) &&
      decide (2 ≤ labels.length) &&
      labels.all (fun l => decide (1 ≤ l.length)) &&
      decide (2 ≤ (List.getLastD labels []).length)
  | _ => false

/-- The check `z.record(z.number().min(1).max(10))` performs on the
values of a ratings record: every value lies in the inclusive range
`[1, 10]`.  The schema does not require the values to be integers. -/
def ratingsOk (m : List (String × ℚ)) : Bool :=
  m.all (fun kv => decide (1 ≤ kv.2) && decide (kv.2 ≤ 10))

/-- Key lookup in a parsed JSON object; with duplicate keys the last
binding wins, as in `JSON.parse`. -/
def recordLookup (m : List (String × ℚ)) (k : String) : Option ℚ :=
  m.foldl (fun acc kv => if kv.1 == k then some kv.2 else acc) none

/-- View a validated raw ratings object through key lookup. -/
def toAssessmentData (r : RawAssessment) : AssessmentData :=
  { satisfaction := recordLookup r.satisfaction
    motivation := recordLookup r.motivation }

/-- Model of `emailResultsSchema.parse`: the parse succeeds exactly when
the email is valid and every rating of both records is in `[1, 10]`
(shape errors are excluded by the typing of `RequestBody`); `none` models
the thrown `ZodError`. -/
def parseEmailResults (b : RequestBody) : Option EmailResultsRequest :=
  if isValidEmail b.email && ratingsOk b.assessmentData.satisfaction
      && ratingsOk b.assessmentData.motivation then
    some { email := b.email
           name := b.name
           updates := b.updates
           assessmentData := toAssessmentData b.assessmentData }
  else
    none

/-- The two mail-transport environment variables; `none` models an unset
variable. -/
structure Env where
  gmailUser : Option String
  gmailAppPassword : Option String

/-- JavaScript truth test `!v` on an environment variable: an unset
variable (`undefined`) and the empty string are both falsy. -/
def envFalsy : Option String → Bool
  | none => true
  | some s => s.isEmpty

/-- Observable outcome of one call of the endpoint handler: the HTTP
status and JSON payload it responds with, whether `calculateResults` ran
(and on what), and whether `transporter.sendMail` was invoked. -/
structure HandlerResult where
  status : ℕ
  success : Bool
  message : String
  scored : Option CalculatedResults
  sendAttempted : Bool

/-- The `POST /api/email-results` handler of `server/routes.ts`: first
the credentials check, then the schema parse (whose failure the catch-all
turns into the generic 500), then scoring, then the send; a send failure
is caught by the same catch-all and yields the same generic 500.
`sendOk` models whether the `sendMail` call resolves or rejects. -/
def handleEmailResults (env : Env) (sendOk : Bool) (body : RequestBody) : HandlerResult :=
  if envFalsy env.gmailUser || envFalsy env.gmailAppPassword then
    { status := 500
      success := false
      message := "Email service is not configured. Please contact support."
      scored := none
      sendAttempted := false }
  else
    match parseEmailResults body with
    | none =>
      { status := 500
        success := false
        message := "Failed to send email. Please check your email address and try again."
        scored := none
        sendAttempted := false }
    | some validatedData =>
      let results := calculateResults validatedData.assessmentData
      if sendOk then
        { status := 200
          success := true
          message := "Results sent successfully!"
          scored := some results
          sendAttempted := true }
      else
        { status := 500
          success := false
          message := "Failed to send email. Please check your email address and try again."
          scored := some results
          sendAttempted := true }

/-! ### Properties of the stable descending sort -/

/-- Membership is preserved by `sortedInsert`. -/
theorem mem_sortedInsert {x a : ScoredCategory} :
    ∀ {ys : List ScoredCategory}, a ∈ sortedInsert x ys ↔ a = x ∨ a ∈ ys := by
  intro ys
  induction ys with
  | nil => simp [sortedInsert]
  | cons y ys ih =>
    simp only [sortedInsert]
    split
    · simp [List.mem_cons]
    · simp only [List.mem_cons, ih]
      tauto

/-- `sortedInsert` produces a permutation of consing the element. -/
theorem sortedInsert_perm (x : ScoredCategory) (ys : List ScoredCategory) :
    List.Perm (sortedInsert x ys) (x :: ys) := by
  induction ys with
  | nil => exact List.Perm.refl _
  | cons y ys ih =>
    simp only [sortedInsert]
    split
    · exact List.Perm.refl _
    · exact (List.Perm.cons y ih).trans (List.Perm.swap x y ys)

/-- The sort permutes its input. -/
theorem sortByPriorityDesc_perm (l : List ScoredCategory) :
    List.Perm (sortByPriorityDesc l) l := by
  induction l with
  | nil => exact List.Perm.refl _
  | cons x xs ih =>
    exact (sortedInsert_perm x (sortByPriorityDesc xs)).trans (List.Perm.cons x ih)

/-- Output ordering invariant of the stable descending sort: priorities
are descending, and on equal priorities the enumeration index of the
category is ascending. -/
def rankRel (a b : ScoredCategory) : Prop :=
  b.priority ≤ a.priority ∧ (a.priority = b.priority → catIdx a.category < catIdx b.category)

/-- Inserting an element that came after everything already in the list
(in enumeration order) preserves the ordering invariant. -/
theorem sortedInsert_pairwise {x : ScoredCategory} {ys : List ScoredCategory}
    (hys : ys.Pairwise rankRel)
    (hx : ∀ y ∈ ys, catIdx x.category < catIdx y.category) :
    (sortedInsert x ys).Pairwise rankRel := by
  induction ys with
  | nil => simp [sortedInsert]
  | cons y ys ih =>
    rcases List.pairwise_cons.mp hys with ⟨h1, h2⟩
    have hxy : catIdx x.category < catIdx y.category := hx y (List.mem_cons_self y ys)
    have hxs : ∀ z ∈ ys, catIdx x.category < catIdx z.category :=
      fun z hz => hx z (List.mem_cons_of_mem y hz)
    simp only [sortedInsert]
    split
    case isTrue hc =>
      refine List.pairwise_cons.mpr ⟨?_, hys⟩
      intro z hz
      rcases List.mem_cons.mp hz with rfl | hz'
      · exact ⟨hc, fun _ => hxy⟩
      · exact ⟨le_trans (h1 z hz').1 hc, fun _ => hxs z hz'⟩
    case isFalse hc =>
      have hlt : x.priority < y.priority := not_le.mp hc
      refine List.pairwise_cons.mpr ⟨?_, ih h2 hxs⟩
      intro z hz
      rcases mem_sortedInsert.mp hz with rfl | hz'
      · refine ⟨le_of_lt hlt, fun he => ?_⟩
        rw [he] at hlt
        exact absurd hlt (lt_irrefl _)
      · exact h1 z hz'

/-- Sorting a list whose categories appear in enumeration order yields
the ordering invariant (this is exactly the stability law). -/
theorem sortByPriorityDesc_pairwise {l : List ScoredCategory}
    (hl : l.Pairwise (fun a b => catIdx a.category < catIdx b.category)) :
    (sortByPriorityDesc l).Pairwise rankRel := by
  induction l with
  | nil => simp [sortByPriorityDesc]
  | cons x xs ih =>
    rcases List.pairwise_cons.mp hl with ⟨h1, h2⟩
    exact sortedInsert_pairwise (ih h2)
      (fun y hy => h1 y ((sortByPriorityDesc_perm xs).mem_iff.mp hy))

/-- The category recorded in an entry is the category it was built
from. -/
theorem mkEntry_category (assessmentData : AssessmentData) (c : LifeCategory) :
    (mkEntry assessmentData c).category = c := rfl

/-- The list of entries fed to the sort carries the categories in
enumeration order. -/
theorem entries_pairwise_idx (assessmentData : AssessmentData) :
    (lifeCategories.map (fun category => mkEntry assessmentData category)).Pairwise
      (fun a b => catIdx a.category < catIdx b.category) := by
  rw [List.pairwise_map]
  simp only [mkEntry_category]
  decide

/-! ### Claims about the scorer -/

/-- Helper: when the stored value cannot be `0`, the falsy-or lookup
agrees with the nullish default `m[k] ?? 1`. -/
theorem ratingOr1_eq_getD {m : String → Option ℚ} {k : String}
    (h : ∀ v, m k = some v → v ≠ 0) : ratingOr1 m k = (m k).getD 1 := by
  unfold ratingOr1
  cases hmk : m k with
  | none => rfl
  | some v => simp [h v hmk]

/-- C1: for every assessment input whose present ratings (over the eight
fixed categories) lie in `[1, 10]`, the scorer produces
`improvement = 10 - satisfaction` and
`priority = (10 - satisfaction) * motivation` for every category, where
each rating is read from the corresponding input mapping and defaults to
`1` when the category is absent from it. -/
theorem calculateResults_formula (d : AssessmentData)
    (hs : ∀ (c : LifeCategory) (v : ℚ), d.satisfaction (categoryKey c) = some v → 1 ≤ v ∧ v ≤ 10)
    (hm : ∀ (c : LifeCategory) (v : ℚ), d.motivation (categoryKey c) = some v → 1 ≤ v ∧ v ≤ 10) :
    ∀ c : LifeCategory,
      (calculateResults d).improvement c = 10 - ((d.satisfaction (categoryKey c)).getD 1) ∧
      (calculateResults d).priority c =
        (10 - ((d.satisfaction (categoryKey c)).getD 1)) * ((d.motivation (categoryKey c)).getD 1) := by
  intro c
  have hns : ∀ v, d.satisfaction (categoryKey c) = some v → v ≠ 0 := by
    intro v hv h0
    have h1 := (hs c v hv).1
    rw [h0] at h1
    exact absurd h1 (by norm_num)
  have hnm : ∀ v, d.motivation (categoryKey c) = some v → v ≠ 0 := by
    intro v hv h0
    have h1 := (hm c v hv).1
    rw [h0] at h1
    exact absurd h1 (by norm_num)
  have es := ratingOr1_eq_getD hns
  have em := ratingOr1_eq_getD hnm
  exact ⟨by simp [calculateResults, es], by simp [calculateResults, es, em]⟩

/-- A concrete input: satisfaction 7 and motivation 9 for health, all
other categories unanswered. -/
def dataHealth79 : AssessmentData :=
  { satisfaction := fun k => if k = "health" then some 7 else none
    motivation := fun k => if k = "health" then some 9 else none }

/-- C1 witness: the formula instantiated at a concrete valid input. -/
theorem calculateResults_formula_witness :
    (calculateResults dataHealth79).improvement LifeCategory.health =
        10 - ((dataHealth79.satisfaction (categoryKey LifeCategory.health)).getD 1) ∧
      (calculateResults dataHealth79).priority LifeCategory.health =
        (10 - ((dataHealth79.satisfaction (categoryKey LifeCategory.health)).getD 1)) *
          ((dataHealth79.motivation (categoryKey LifeCategory.health)).getD 1) :=
  calculateResults_formula dataHealth79
    (by
      intro c v h
      cases c <;> simp [dataHealth79, categoryKey] at h
      subst h
      decide)
    (by
      intro c v h
      cases c <;> simp [dataHealth79, categoryKey] at h
      subst h
      decide)
    LifeCategory.health

/-- C2: for every assessment input, `priorityRanked` has exactly eight
entries whose categories are a permutation of the fixed enumeration —
one entry per category, no duplicates, no omissions. -/
theorem priorityRanked_complete (d : AssessmentData) :
    (calculateResults d).priorityRanked.length = 8 ∧
      List.Perm ((calculateResults d).priorityRanked.map (fun e => e.category))
        lifeCategories := by
  have hp : List.Perm (calculateResults d).priorityRanked
      (lifeCategories.map (fun category => mkEntry d category)) :=
    sortByPriorityDesc_perm _
  constructor
  · rw [hp.length_eq]
    simp [lifeCategories]
  · have hmap := hp.map (fun e => e.category)
    have hcat : (lifeCategories.map (fun category => mkEntry d category)).map
        (fun e => e.category) = lifeCategories := by
      simp only [List.map_map]
      show List.map (fun category => (mkEntry d category).category) lifeCategories
        = lifeCategories
      simp [mkEntry_category]
    rw [hcat] at hmap
    exact hmap

/-- C3: for every assessment input, `priorityRanked` is sorted by
descending priority, and any two entries of equal priority appear in the
order of the fixed category enumeration (stability of the sort). -/
theorem priorityRanked_sorted_stable (d : AssessmentData) :
    (calculateResults d).priorityRanked.Pairwise (fun a b =>
      b.priority ≤ a.priority ∧
        (a.priority = b.priority → catIdx a.category < catIdx b.category)) :=
  sortByPriorityDesc_pairwise (entries_pairwise_idx d)

/-- An input with both mappings entirely empty. -/
def emptyAssessment : AssessmentData :=
  { satisfaction := fun _ => none, motivation := fun _ => none }

/-- C7 counterexample: the output mappings are not the raw input
mappings.  On the empty input the returned satisfaction record holds the
entry `1` for `health`, an entry the raw input does not contain at all
(the scorer stores the falsy-defaulted values, not the raw ones). -/
theorem calculateResults_not_raw_passthrough :
    some ((calculateResults emptyAssessment).satisfaction LifeCategory.health)
      ≠ emptyAssessment.satisfaction (categoryKey LifeCategory.health) := by
  decide

/-- C7 amended: the returned satisfaction and motivation records equal
the input mappings with the fallback applied, entry for entry over the
eight fixed categories: a present nonzero value is passed through
unchanged, and an absent or zero entry is stored as `1` (keys outside the
eight categories are dropped). -/
theorem calculateResults_passthrough_defaulted (d : AssessmentData) (c : LifeCategory) :
    ((∀ v : ℚ, d.satisfaction (categoryKey c) = some v → v ≠ 0 →
        (calculateResults d).satisfaction c = v) ∧
      (d.satisfaction (categoryKey c) = none → (calculateResults d).satisfaction c = 1) ∧
      (d.satisfaction (categoryKey c) = some 0 → (calculateResults d).satisfaction c = 1)) ∧
    ((∀ v : ℚ, d.motivation (categoryKey c) = some v → v ≠ 0 →
        (calculateResults d).motivation c = v) ∧
      (d.motivation (categoryKey c) = none → (calculateResults d).motivation c = 1) ∧
      (d.motivation (categoryKey c) = some 0 → (calculateResults d).motivation c = 1)) := by
  refine ⟨⟨?_, ?_, ?_⟩, ⟨?_, ?_, ?_⟩⟩
  · intro v hv h0
    simp [calculateResults, ratingOr1, hv, h0]
  · intro hv
    simp [calculateResults, ratingOr1, hv]
  · intro hv
    simp [calculateResults, ratingOr1, hv]
  · intro v hv h0
    simp [calculateResults, ratingOr1, hv, h0]
  · intro hv
    simp [calculateResults, ratingOr1, hv]
  · intro hv
    simp [calculateResults, ratingOr1, hv]

/-- C7 witness: at the concrete input with satisfaction 7 for health,
the stored satisfaction entry for health is the raw 7 and the entry for
career (absent in the input) is the default 1. -/
theorem calculateResults_passthrough_defaulted_witness :
    (calculateResults dataHealth79).satisfaction LifeCategory.health = 7 ∧
      (calculateResults dataHealth79).satisfaction LifeCategory.career = 1 :=
  ⟨(calculateResults_passthrough_defaulted dataHealth79 LifeCategory.health).1.1 7
      (by decide) (by decide),
    (calculateResults_passthrough_defaulted dataHealth79 LifeCategory.career).1.2.1
      (by decide)⟩

/-- C8: the client-side and the server-side scoring functions are
extensionally equal — on every input they return identical results (the
two source bodies are verbatim copies of one another). -/
theorem client_server_calculateResults_eq :
    ∀ d : AssessmentData, Client.calculateResults d = calculateResults d :=
  fun _ => rfl

/-- C9: keys outside the eight fixed categories never influence the
output; two inputs agreeing on the eight category keys of both mappings
yield equal results. -/
theorem calculateResults_depends_only_on_category_keys (d1 d2 : AssessmentData)
    (h : ∀ c : LifeCategory,
      d1.satisfaction (categoryKey c) = d2.satisfaction (categoryKey c) ∧
        d1.motivation (categoryKey c) = d2.motivation (categoryKey c)) :
    calculateResults d1 = calculateResults d2 := by
  have hs : ∀ c : LifeCategory,
      ratingOr1 d1.satisfaction (categoryKey c) = ratingOr1 d2.satisfaction (categoryKey c) := by
    intro c
    unfold ratingOr1
    rw [(h c).1]
  have hm : ∀ c : LifeCategory,
      ratingOr1 d1.motivation (categoryKey c) = ratingOr1 d2.motivation (categoryKey c) := by
    intro c
    unfold ratingOr1
    rw [(h c).2]
  simp only [calculateResults, mkEntry, hs, hm]

/-- An input equal to `dataHealth79` on every category key but with an
additional entry under the foreign key "junk". -/
def dataHealth79Junk : AssessmentData :=
  { satisfaction := fun k =>
      if k = "health" then some 7 else if k = "junk" then some 3 else none
    motivation := fun k => if k = "health" then some 9 else none }

/-- C9 witness: adding a rating under a key outside the eight categories
leaves the result unchanged. -/
theorem calculateResults_depends_only_on_category_keys_witness :
    calculateResults dataHealth79 = calculateResults dataHealth79Junk :=
  calculateResults_depends_only_on_category_keys dataHealth79 dataHealth79Junk
    (by intro c; cases c <;> exact ⟨by decide, by decide⟩)

/-- C10: at the scorer's interface a present rating `0` behaves exactly
like an absent rating: because the fallback is the falsy `|| 1`, an input
with a zero entry for a category scores identically to the same input
with that entry removed. -/
theorem calculateResults_zero_eq_absent (d : AssessmentData) (c : LifeCategory) :
    (d.satisfaction (categoryKey c) = some 0 →
      calculateResults d =
        calculateResults
          { satisfaction := Function.update d.satisfaction (categoryKey c) none
            motivation := d.motivation }) ∧
    (d.motivation (categoryKey c) = some 0 →
      calculateResults d =
        calculateResults
          { satisfaction := d.satisfaction
            motivation := Function.update d.motivation (categoryKey c) none }) := by
  constructor
  · intro h0
    have hs : ∀ c' : LifeCategory,
        ratingOr1 d.satisfaction (categoryKey c') =
          ratingOr1 (Function.update d.satisfaction (categoryKey c) none) (categoryKey c') := by
      intro c'
      by_cases hk : categoryKey c' = categoryKey c
      · rw [hk]
        unfold ratingOr1
        rw [Function.update_same, h0]
        simp
      · unfold ratingOr1
        rw [Function.update_noteq hk]
    simp only [calculateResults, mkEntry, hs]
  · intro h0
    have hm : ∀ c' : LifeCategory,
        ratingOr1 d.motivation (categoryKey c') =
          ratingOr1 (Function.update d.motivation (categoryKey c) none) (categoryKey c') := by
      intro c'
      by_cases hk : categoryKey c' = categoryKey c
      · rw [hk]
        unfold ratingOr1
        rw [Function.update_same, h0]
        simp
      · unfold ratingOr1
        rw [Function.update_noteq hk]
    simp only [calculateResults, mkEntry, hm]

/-- An input rating health satisfaction as `0` (a value the endpoint
schema would reject, but which the scorer itself accepts). -/
def dataZeroHealth : AssessmentData :=
  { satisfaction := fun k => if k = "health" then some 0 else none
    motivation := fun _ => none }

/-- C10 witness: removing the zero entry for health from the concrete
input leaves the result unchanged. -/
theorem calculateResults_zero_eq_absent_witness :
    calculateResults dataZeroHealth =
      calculateResults
        { satisfaction := Function.update dataZeroHealth.satisfaction
            (categoryKey LifeCategory.health) none
          motivation := dataZeroHealth.motivation } :=
  (calculateResults_zero_eq_absent dataZeroHealth LifeCategory.health).1 (by decide)

/-! ### Claims about the mail-send endpoint -/

/-- The ratings object contains a value that is not an integer. -/
def hasNonIntegerRating (r : RawAssessment) : Prop :=
  ∃ kv : String × ℚ, (kv ∈ r.satisfaction ∨ kv ∈ r.motivation) ∧ ¬ ∃ n : ℤ, kv.2 = (n : ℚ)

/-- The ratings object contains a value outside the inclusive range
`[1, 10]`. -/
def hasOutOfRangeRating (r : RawAssessment) : Prop :=
  ∃ kv : String × ℚ, (kv ∈ r.satisfaction ∨ kv ∈ r.motivation) ∧ (kv.2 < 1 ∨ 10 < kv.2)

/-- The rational `11/2`, the JSON number `5.5`. -/
def fiveAndAHalf : ℚ := ⟨11, 2, by decide, by decide⟩

/-- A request body with a valid email and a non-integer satisfaction
rating of `5.5` for health. -/
def bodyNonInteger : RequestBody :=
  { email := "janette@example.com"
    name := none
    updates := none
    assessmentData := { satisfaction := [("health", fiveAndAHalf)], motivation := [] } }

/-- An environment with both mail-transport secrets set. -/
def envConfigured : Env :=
  { gmailUser := some "sender@gmail.com", gmailAppPassword := some "app-password" }

/-- C4 counterexample: the schema does not reject non-integer ratings.
The body rating health satisfaction `5.5` contains a non-integer rating,
yet validation succeeds, and on a configured environment the endpoint
goes on to score it. -/
theorem schema_accepts_non_integer :
    hasNonIntegerRating bodyNonInteger.assessmentData ∧
      (parseEmailResults bodyNonInteger).isSome = true ∧
      (handleEmailResults envConfigured true bodyNonInteger).scored.isSome = true := by
  refine ⟨⟨("health", fiveAndAHalf), Or.inl (by simp [bodyNonInteger]), ?_⟩, by decide, by decide⟩
  rintro ⟨n, hn⟩
  have hden := congrArg Rat.den hn
  rw [Rat.den_intCast] at hden
  exact absurd hden (by decide)

/-- C4 amended: the schema applied by the endpoint before scoring
rejects every assessment whose ratings fall outside `[1, 10]` (and
malformed shapes, which the typing of `RequestBody` excludes): for every
body containing an out-of-range rating, validation fails, no scoring
occurs and no send is attempted.  Non-integer ratings inside `[1, 10]`
are not rejected (the schema has no integrality check). -/
theorem schema_rejects_out_of_range (body : RequestBody)
    (h : hasOutOfRangeRating body.assessmentData) :
    parseEmailResults body = none ∧
      ∀ (env : Env) (sendOk : Bool),
        (handleEmailResults env sendOk body).scored = none ∧
          (handleEmailResults env sendOk body).sendAttempted = false := by
  have hfail : ratingsOk body.assessmentData.satisfaction = false ∨
      ratingsOk body.assessmentData.motivation = false := by
    rcases h with ⟨kv, hmem, hout⟩
    have hp : (decide (1 ≤ kv.2) && decide (kv.2 ≤ 10)) = false := by
      rcases hout with h1 | h1
      · simp [decide_eq_false (not_le.mpr h1)]
      · simp [decide_eq_false (not_le.mpr h1)]
    rcases hmem with hm1 | hm1
    · left
      unfold ratingsOk
      rw [List.all_eq_false]
      exact ⟨kv, hm1, by simp [hp]⟩
    · right
      unfold ratingsOk
      rw [List.all_eq_false]
      exact ⟨kv, hm1, by simp [hp]⟩
  have hparse : parseEmailResults body = none := by
    unfold parseEmailResults
    rcases hfail with hf | hf <;> simp [hf]
  refine ⟨hparse, ?_⟩
  intro env sendOk
  unfold handleEmailResults
  split
  · exact ⟨rfl, rfl⟩
  · rw [hparse]
    exact ⟨rfl, rfl⟩

/-- A request body with a valid email and an out-of-range satisfaction
rating of `0` for health. -/
def bodyOutOfRange : RequestBody :=
  { email := "janette@example.com"
    name := none
    updates := none
    assessmentData := { satisfaction := [("health", 0)], motivation := [] } }

/-- C4 witness: the out-of-range body is rejected, unscored and
unsent. -/
theorem schema_rejects_out_of_range_witness :
    parseEmailResults bodyOutOfRange = none ∧
      (handleEmailResults envConfigured true bodyOutOfRange).scored = none ∧
      (handleEmailResults envConfigured true bodyOutOfRange).sendAttempted = false := by
  have h := schema_rejects_out_of_range bodyOutOfRange
    ⟨("health", 0), Or.inl (by simp [bodyOutOfRange]), Or.inl (by decide)⟩
  exact ⟨h.1, (h.2 envConfigured true).1, (h.2 envConfigured true).2⟩

/-- C5: whenever either mail-transport secret is absent, every request
receives the distinct not-configured failure and nothing else happens:
no scoring, no send attempt. -/
theorem missing_credentials_not_configured (env : Env) (sendOk : Bool) (body : RequestBody)
    (h : env.gmailUser = none ∨ env.gmailAppPassword = none) :
    handleEmailResults env sendOk body =
      { status := 500
        success := false
        message := "Email service is not configured. Please contact support."
        scored := none
        sendAttempted := false } := by
  have hcond : (envFalsy env.gmailUser || envFalsy env.gmailAppPassword) = true := by
    rcases h with h | h <;> simp [envFalsy, h]
  unfold handleEmailResults
  rw [hcond]
  simp

/-- A well-formed request body with a valid email and valid ratings. -/
def bodyValid : RequestBody :=
  { email := "janette@example.com"
    name := some "Janette"
    updates := some false
    assessmentData := { satisfaction := [("health", 7)], motivation := [("health", 9)] } }

/-- An environment with the user secret unset. -/
def envMissingUser : Env :=
  { gmailUser := none, gmailAppPassword := some "app-password" }

/-- C5 witness: with the user secret unset, a fully valid request gets
the not-configured response and no send is attempted. -/
theorem missing_credentials_not_configured_witness :
    handleEmailResults envMissingUser true bodyValid =
      { status := 500
        success := false
        message := "Email service is not configured. Please contact support."
        scored := none
        sendAttempted := false } :=
  missing_credentials_not_configured envMissingUser true bodyValid (Or.inl rfl)

/-- A request body whose email is not a valid address. -/
def bodyInvalidEmail : RequestBody :=
  { email := "not-an-email"
    name := none
    updates := none
    assessmentData := { satisfaction := [], motivation := [] } }

/-- An environment with both mail-transport secrets unset. -/
def envMissing : Env :=
  { gmailUser := none, gmailAppPassword := none }

/-- C6 counterexample: the credentials check precedes validation, so a
request with an invalid email does not get the validation-failure
response when the transport secrets are missing — it gets the
not-configured response instead (scoring and sending still do not
happen, but the response is not the validation failure). -/
theorem invalid_email_not_always_validation_response :
    isValidEmail bodyInvalidEmail.email = false ∧
      (handleEmailResults envMissing true bodyInvalidEmail).message =
        "Email service is not configured. Please contact support." ∧
      (handleEmailResults envMissing true bodyInvalidEmail).message ≠
        "Failed to send email. Please check your email address and try again." := by
  refine ⟨by decide, rfl, by decide⟩

/-- C6 amended: provided both mail-transport secrets are set (and
nonempty), every request whose email is invalid is rejected by the
schema check with the endpoint's failure response, before any scoring
and before any send attempt. -/
theorem invalid_email_rejected_before_scoring (env : Env) (sendOk : Bool) (body : RequestBody)
    (hu : envFalsy env.gmailUser = false) (hp : envFalsy env.gmailAppPassword = false)
    (he : isValidEmail body.email = false) :
    handleEmailResults env sendOk body =
      { status := 500
        success := false
        message := "Failed to send email. Please check your email address and try again."
        scored := none
        sendAttempted := false } := by
  have hparse : parseEmailResults body = none := by
    unfold parseEmailResults
    simp [he]
  unfold handleEmailResults
  rw [hu, hp, hparse]
  simp

/-- C6 witness: on a configured environment the concrete invalid-email
request gets the failure response with no scoring and no send. -/
theorem invalid_email_rejected_before_scoring_witness :
    handleEmailResults envConfigured true bodyInvalidEmail =
      { status := 500
        success := false
        message := "Failed to send email. Please check your email address and try again."
        scored := none
        sendAttempted := false } :=
  invalid_email_rejected_before_scoring envConfigured true bodyInvalidEmail
    (by decide) (by decide) (by decide)
